import Mathlib

/-!
Shallow embedding of the 3pUTR_annotation repository's peak-to-UTR decision
engine and batch pipeline, with theorems checking the specification's claims.

The per-peak decision logic is embedded from `peaks_to_UTR.py`; the pipeline
checks, batching and aggregation are embedded from `peaks2utr/__init__.py`.
Where the deciding code lives in repository modules not present in the source
tree (`peaks2utr/annotations.py`, `peaks2utr/utils.py`), the corresponding
definitions are modelled from the specification and say so in their doc
comments.
-/

namespace PeaksToUTR

/-- Attribute mapping of a GFF feature: key to list-of-values, as in
`gffutils` attribute dictionaries.  Python `dict` assignment semantics:
updating an existing key keeps its position, a new key is appended. -/
abbrev Attributes := List (String × List String)

/-- Look an attribute up; a missing key yields `[]` (gffutils returns an
empty list for absent keys). -/
def getAttr (attrs : Attributes) (k : String) : List String :=
  match attrs.find? (fun p => p.1 = k) with
  | some p => p.2
  | none => []

/-- `attrs[k] = v` with Python dict semantics (keys are unique in a dict:
an existing key is updated in place, a new key is appended). -/
def setAttr : Attributes → String → List String → Attributes
  | [], k, v => [(k, v)]
  | (k', v') :: rest, k, v =>
      if k' = k then (k, v) :: rest else (k', v') :: setAttr rest k v

/-- A GFF feature row as held by the `gffutils` database and as constructed
by `gffutils.Feature(...)` in `peaks_to_UTR.py`. -/
structure Feature where
  seqid : String
  source : String
  featuretype : String
  start : Int
  «end» : Int
  score : String
  strand : String
  frame : String
  attributes : Attributes
deriving DecidableEq

/-- `gffutils` feature id: the first value of the `ID` attribute (the
default `id_spec` used by `gffutils.create_db`). -/
def Feature.id (f : Feature) : String :=
  (getAttr f.attributes "ID").headD ""

/-- `Feature.chrom` is an alias of `seqid` in gffutils; `peaks_to_UTR.py`
reads `gene.chrom`. -/
def Feature.chrom (f : Feature) : String := f.seqid

/-- One row of a broadPeak file, `Peak` namedtuple of `peaks_to_UTR.py`
with `start`/`end` already passed through `int(...)`. -/
structure Peak where
  chr : String
  start : Int
  «end» : Int
  name : String
  score : String
  strand : String
  signalValue : String
  pValue : String
  qValue : String
deriving DecidableEq

/-- User parameter `maxDistanceFromTranscript` of `peaks_to_UTR.py`. -/
def maxDistanceFromTranscript : Int := 200

/-- `db.region(seqid=..., start=..., end=..., strand=...)`: the features of
the database on the given seqid and strand overlapping `[qstart, qend]`
(gffutils default `completely_within=False` overlap semantics), in database
order. -/
def region (db : List Feature) (seqid : String) (qstart qend : Int)
    (strand : String) : List Feature :=
  db.filter (fun f =>
    f.seqid = seqid ∧ f.start ≤ qend ∧ f.«end» ≥ qstart ∧ f.strand = strand)

/-- The feature emitted by `peaks_to_UTR.py` when a peak is accepted as the
3' UTR of `gene`: `gffutils.Feature(seqid=gene.chrom, source="3pUTR_annotation",
featuretype="three_prime_UTR", start=gene.end, end=peak.end, score='.',
strand=gene.strand, frame='.', attributes=attrs)` where `attrs` is a copy of
the gene's attributes with `ID`, `Parent` and `colour` reassigned. -/
def makeUTRFeature (gene : Feature) (peak : Peak) : Feature :=
  { seqid := gene.chrom
    source := "3pUTR_annotation"
    featuretype := "three_prime_UTR"
    start := gene.«end»
    «end» := peak.«end»
    score := "."
    strand := gene.strand
    frame := "."
    attributes :=
      setAttr (setAttr (setAttr gene.attributes
        "ID" [gene.id ++ "_UTR"])
        "Parent" [gene.id])
        "colour" ["3"] }

/-- `len(genes) > idx + 1 and int(peak.start) < gene.end and int(peak.end) >
genes[idx + 1].start`: the neighbour-conflict test against the next gene of
the list when one exists. -/
def neighborConflict (peak : Peak) (gene : Feature) : Option Feature → Bool
  | some nextGene => peak.start < gene.«end» ∧ peak.«end» > nextGene.start
  | none => false

/-- The body of the inner `for idx, gene in enumerate(genes)` loop of
`peaks_to_UTR.py` for one gene, given the following gene of the list when
one exists: `continue` on the containment check, `continue` on the
neighbour-conflict check, emit on `peak.end > gene.end`, else nothing. -/
def geneDecision (peak : Peak) (gene : Feature) (next? : Option Feature) :
    Option Feature :=
  if gene.start < peak.start ∧ gene.«end» > peak.«end» then
    none
  else if neighborConflict peak gene next? then
    none
  else if peak.«end» > gene.«end» then
    some (makeUTRFeature gene peak)
  else
    none

/-- The inner loop of `peaks_to_UTR.py` over the `genes` list, collecting
the emitted UTR features in order. -/
def genesLoop (peak : Peak) : List Feature → List Feature
  | [] => []
  | [g] => (geneDecision peak g none).toList
  | g :: g2 :: rest =>
      (geneDecision peak g (some g2)).toList ++ genesLoop peak (g2 :: rest)

/-- Outcome of `peaks_to_UTR.py`'s loop body for a single peak. -/
inductive PeakOutcome where
  | noFeatures : PeakOutcome
  | alreadyAnnotated : PeakOutcome
  | records : List Feature → PeakOutcome
deriving DecidableEq

/-- The UTR features an outcome contributes to the script's `out` string. -/
def outcomeRecords : PeakOutcome → List Feature
  | .noFeatures => []
  | .alreadyAnnotated => []
  | .records fs => fs

/-- The window the script queries around a peak:
`[peak.start - maxDistanceFromTranscript, peak.end + maxDistanceFromTranscript]`
on the peak's chromosome, with `strand='+'` hard-coded. -/
def windowFeatures (db : List Feature) (peak : Peak) : List Feature :=
  region db peak.chr (peak.start - maxDistanceFromTranscript)
    (peak.«end» + maxDistanceFromTranscript) "+"

/-- One iteration of the `for peak in broad_peaks` loop of
`peaks_to_UTR.py`: query the window; `continue` for the whole peak when any
feature in it is already `three_prime_UTR`; otherwise run the gene loop on
the `gene`-typed features; report no-features when the window is empty. -/
def processPeak (db : List Feature) (peak : Peak) : PeakOutcome :=
  if (windowFeatures db peak).isEmpty then
    .noFeatures
  else if (windowFeatures db peak).any
      (fun f => f.featuretype = "three_prime_UTR") then
    .alreadyAnnotated
  else
    .records (genesLoop peak
      ((windowFeatures db peak).filter (fun f => f.featuretype = "gene")))

/-- The whole script run: it opens only `forward_broad_peaks` (the reverse
file is named in `strands` but, per the `TODO` comment, never read), so the
emitted features come from the forward peaks alone. -/
def runScript (db : List Feature) (forwardPeaks reversePeaks : List Peak) :
    List Feature :=
  forwardPeaks.flatMap (fun p => outcomeRecords (processPeak db p))

/-! ## The `peaks2utr` pipeline (`peaks2utr/__init__.py`)

`_main` performs the pre-run configuration checks, fans the peaks out to
worker batches, and aggregates the streamed per-peak results.  The helpers
`iter_batches` (from `peaks2utr/utils.py`) and `annotate_utr_for_peak` /
`Annotations.update` (from `peaks2utr/annotations.py`) are not part of the
available source tree; they are modelled from the specification below and
marked as such. -/

/-- The configuration surface of `prepare_argparser` consumed by `_main`. -/
structure Args where
  max_distance : Int
  override_utr : Bool
  extend_utr : Bool
  force : Bool
  processors : Nat
deriving DecidableEq

/-- Modelled from the spec: `iter_batches` lives in `peaks2utr/utils.py`,
which is absent from the source tree.  Per §4.1, partitioning splits the
collection into successive batches of the given size, preserving relative
order, with no peak in more than one batch.  A batch size of `0` (never
produced by `_main` on a nonempty collection) yields no batches. -/
def iter_batches (xs : List α) (n : Nat) : List (List α) :=
  if h : xs.isEmpty ∨ n = 0 then []
  else xs.take n :: iter_batches (xs.drop n) n
termination_by xs.length
decreasing_by
  push_neg at h
  obtain ⟨h1, h2⟩ := h
  have hx : 0 < xs.length := by
    rcases xs with _ | ⟨y, ys⟩
    · simp at h1
    · simp
  simp only [List.length_drop]
  omega

/-- The batch size computed by `_main`:
`math.ceil(total_peaks / args.processors)`. -/
def batchSize (total processors : Nat) : Nat :=
  (total + processors - 1) / processors

/-- What one worker sends back on the queue for one peak: the sentinel
`NoNearbyFeatures`, a `None` skip, or a per-gene annotation result. -/
inductive PeakResult where
  | noNearbyFeatures : PeakResult
  | skip : PeakResult
  | annotated : List Feature → PeakResult
deriving DecidableEq

/-- The candidate `gene` features of a peak's extended query window on the
peak's own strand (§4.3 step 1). -/
def candidateGenes (db : List Feature) (maxDist : Int) (peak : Peak) :
    List Feature :=
  (region db peak.chr (peak.start - maxDist) (peak.«end» + maxDist)
    peak.strand).filter (fun f => f.featuretype = "gene")

/-- Modelled from the spec: `annotate_utr_for_peak` lives in
`peaks2utr/annotations.py`, which is absent from the source tree.  Per
§4.3 steps 1–2, the worker queries the candidate features in the peak's
extended window on the peak's own strand and emits `NoNearbyFeatures` when
no candidate `gene` feature is found; otherwise it runs the decision rules
of §4.3 (embedded here as the gene loop of `peaks_to_UTR.py`, the
repository's reference implementation of those rules) and emits the
records, or a `None` skip when no gene is accepted. -/
def annotate_utr_for_peak (db : List Feature) (maxDist : Int) (peak : Peak) :
    PeakResult :=
  if (candidateGenes db maxDist peak).isEmpty then
    .noNearbyFeatures
  else
    match genesLoop peak (candidateGenes db maxDist peak) with
    | [] => .skip
    | fs => .annotated fs

/-- A per-gene annotation entry as streamed to the aggregator: the UTR
range together with the claiming peak's signal value (§4.3 tie-break
inputs). -/
structure AnnotRecord where
  gene_id : String
  ustart : Int
  uend : Int
  signal : Int
deriving DecidableEq

/-- Length of the record's UTR range. -/
def utrLength (r : AnnotRecord) : Int := r.uend - r.ustart

/-- Modelled from the spec: the §4.3 tie-break used by
`Annotations.update` (in `peaks2utr/annotations.py`, absent from the source
tree) — "the record with the longer confirmed UTR range wins; on exact tie,
the peak with higher `signal_value` wins; ties after that keep the
first-seen record". -/
def betterThan (r old : AnnotRecord) : Bool :=
  utrLength old < utrLength r ∨
    (utrLength r = utrLength old ∧ old.signal < r.signal)

/-- Modelled from the spec: resolving an incoming record against the entry
already held for its gene, first-seen record kept on full ties (§4.3). -/
def mergeRec (old? : Option AnnotRecord) (r : AnnotRecord) : Option AnnotRecord :=
  match old? with
  | none => some r
  | some old => if betterThan r old then some r else some old

/-- Modelled from the spec: folding one streamed record into the
gene-keyed map (§4.3, §4.6). -/
def updateRecords (s : String → Option AnnotRecord) (r : AnnotRecord) :
    String → Option AnnotRecord :=
  fun g => if g = r.gene_id then mergeRec (s r.gene_id) r else s g

/-- A streamed aggregation item: either the `NoNearbyFeatures` sentinel, a
falsy skip, or a per-gene record (`_main` receives these from the queue). -/
inductive StreamItem where
  | noNearbyFeatures : StreamItem
  | skip : StreamItem
  | record : AnnotRecord → StreamItem
deriving DecidableEq

/-- The `Annotations` accumulator of `_main`: the gene-keyed result map and
the `no_features_counter`. -/
@[ext]
structure Annotations where
  records : String → Option AnnotRecord
  no_features_counter : Nat

/-- One step of the aggregation loop of `_main`:
`if result: if result is NoNearbyFeatures: counter += 1 else: update(result)`. -/
def aggregateStep (ann : Annotations) : StreamItem → Annotations
  | .noNearbyFeatures =>
      { ann with no_features_counter := ann.no_features_counter + 1 }
  | .skip => ann
  | .record r => { ann with records := updateRecords ann.records r }

/-- The aggregation loop of `_main` over the full result stream, starting
from the empty `Annotations()`. -/
def aggregate (results : List StreamItem) : Annotations :=
  results.foldl aggregateStep ⟨fun _ => none, 0⟩

/-- Whether the window `_main`'s worker queries around a peak holds no
candidate `gene` feature on the peak's strand. -/
def hasNoNearbyGenes (db : List Feature) (maxDist : Int) (peak : Peak) : Bool :=
  (candidateGenes db maxDist peak).isEmpty

/-- Result of `_main` as far as the embedded claims observe it: the exit
code, how many peaks the pipeline processed, and the aggregated
annotations when the run went through. -/
structure MainOutcome where
  exitCode : Nat
  peaksProcessed : Nat
  aggregated : Option Annotations

/-- The control flow of `_main`: the pre-run checks (`sys.exit(1)` when the
output file exists without `--force`, `sys.exit(1)` when `--override-utr`
and `--extend-utr` are both set), then batching, per-peak annotation and
aggregation, then `sys.exit(0)`.  `toItem` renders a worker's per-peak
result as the queue item the aggregation loop receives (the sentinel stays
the sentinel; `None` skips stay falsy; annotated results become per-gene
records). -/
def mainPipeline (outputExists : Bool) (args : Args) (db : List Feature)
    (peaks : List Peak) (toItem : PeakResult → StreamItem) : MainOutcome :=
  if outputExists ∧ ¬ args.force then
    { exitCode := 1, peaksProcessed := 0, aggregated := none }
  else if args.override_utr ∧ args.extend_utr then
    { exitCode := 1, peaksProcessed := 0, aggregated := none }
  else
    let batches := iter_batches peaks (batchSize peaks.length args.processors)
    let results := batches.flatMap
      (fun b => b.map (fun p => toItem (annotate_utr_for_peak db args.max_distance p)))
    { exitCode := 0
      peaksProcessed := peaks.length
      aggregated := some (aggregate results) }

/-! ## Concrete fixtures used by the counterexamples and witnesses -/

/-- A forward-strand gene `[50, 150]`. -/
def exG1 : Feature :=
  ⟨"chr1", "src", "gene", 50, 150, ".", "+", ".", [("ID", ["g1"])]⟩

/-- A forward-strand gene `[200, 250]`, starting after `exG1` ends. -/
def exG2 : Feature :=
  ⟨"chr1", "src", "gene", 200, 250, ".", "+", ".", [("ID", ["g2"])]⟩

/-- A forward peak `[100, 300]` spanning the boundary between `exG1` and
`exG2`. -/
def exPeak : Peak :=
  ⟨"chr1", 100, 300, "peak1", "0", ".", "0", "0", "0"⟩

/-- The same interval as `exPeak` carrying an explicit `+` strand, as the
`peaks2utr` peak lists do. -/
def exPeakPlus : Peak :=
  ⟨"chr1", 100, 300, "peakF", "0", "+", "0", "0", "0"⟩

/-- An already-annotated 3' UTR feature `[10, 50]` inside `exPeak`'s
query window. -/
def exUTR : Feature :=
  ⟨"chr1", "src", "three_prime_UTR", 10, 50, ".", "+", ".", [("ID", ["u1"])]⟩

/-- A forward-strand gene `[80, 200]` that `exPeak` extends past; it
carries a `colour` attribute of its own. -/
def exGB : Feature :=
  ⟨"chr1", "src", "gene", 80, 200, ".", "+", ".",
    [("ID", ["gB"]), ("colour", ["5"]), ("note", ["keep"])]⟩

/-- An argument set with both mutually exclusive flags switched on. -/
def exArgs : Args :=
  { max_distance := 200, override_utr := true, extend_utr := true,
    force := false, processors := 1 }

/-- A forward-strand gene `[800, 1000]`. -/
def exG4 : Feature :=
  ⟨"chr1", "src", "gene", 800, 1000, ".", "+", ".", [("ID", ["g4"])]⟩

/-- A forward peak `[900, 1200]` extending past `exG4`'s end `1000`. -/
def exPeak4 : Peak :=
  ⟨"chr1", 900, 1200, "peak4", "0", ".", "0", "0", "0"⟩

/-- A forward-strand gene `[80, 400]` strictly containing `exPeak`'s
interval `[100, 300]`. -/
def exG5 : Feature :=
  ⟨"chr1", "src", "gene", 80, 400, ".", "+", ".", [("ID", ["g5"])]⟩

/-- A reverse-strand gene `[100, 200]`. -/
def exGRev : Feature :=
  ⟨"chr1", "src", "gene", 100, 200, ".", "-", ".", [("ID", ["gRev"])]⟩

/-- A reverse-strand peak `[50, 250]` overlapping `exGRev`. -/
def exPRev : Peak :=
  ⟨"chr1", 50, 250, "rpeak1", "0", "-", "0", "0", "0"⟩

/-- Annotation record for gene `gX` with range `[0, 100]` and signal 5. -/
def exR1 : AnnotRecord := ⟨"gX", 0, 100, 5⟩

/-- Annotation record for gene `gX` with range `[50, 150]` (same length as
`exR1`'s) and the same signal 5. -/
def exR2 : AnnotRecord := ⟨"gX", 50, 150, 5⟩

/-- Annotation record for gene `gX` with range `[0, 80]` and signal 2. -/
def exR3 : AnnotRecord := ⟨"gX", 0, 80, 2⟩

/-- Annotation record for gene `gY` with range `[10, 60]` and signal 9. -/
def exR4 : AnnotRecord := ⟨"gY", 10, 60, 9⟩

/-- The queue-item rendering used by the witnesses: the sentinel stays the
sentinel, everything else arrives as a falsy skip. -/
def plainItem : PeakResult → StreamItem
  | .noNearbyFeatures => .noNearbyFeatures
  | .skip => .skip
  | .annotated _ => .skip

/-! ## Helper lemmas -/

theorem genesLoop_cons (peak : Peak) (g : Feature) (rest : List Feature) :
    genesLoop peak (g :: rest) =
      (geneDecision peak g rest.head?).toList ++ genesLoop peak rest := by
  cases rest <;> simp [genesLoop]

theorem geneDecision_eq_some (peak : Peak) (g : Feature) (next? : Option Feature)
    (f : Feature) (h : geneDecision peak g next? = some f) :
    f = makeUTRFeature g peak := by
  unfold geneDecision at h
  split at h
  · cases h
  · split at h
    · cases h
    · split at h
      · injection h with h
        exact h.symm
      · cases h

theorem getAttr_setAttr_self (attrs : Attributes) (k : String)
    (v : List String) : getAttr (setAttr attrs k v) k = v := by
  induction attrs with
  | nil => simp [setAttr, getAttr, List.find?]
  | cons p rest ih =>
      by_cases hk : p.1 = k
      · simp [setAttr, hk, getAttr, List.find?]
      · simpa [setAttr, hk, getAttr, List.find?] using ih

theorem getAttr_setAttr_ne (attrs : Attributes) (k k' : String)
    (v : List String) (h : k' ≠ k) :
    getAttr (setAttr attrs k v) k' = getAttr attrs k' := by
  induction attrs with
  | nil => simp [setAttr, getAttr, List.find?, Ne.symm h]
  | cons p rest ih =>
      by_cases hk : p.1 = k
      · by_cases hk' : p.1 = k'
        · exact absurd (hk'.symm.trans hk) h
        · simp [setAttr, hk, getAttr, List.find?, hk', Ne.symm h]
      · by_cases hk' : p.1 = k'
        · simp [setAttr, hk, getAttr, List.find?, hk', h]
        · simpa [setAttr, hk, getAttr, List.find?, hk'] using ih

/-! ## Claims C1 – C5: the per-peak decision engine of `peaks_to_UTR.py` -/

/-- C1, counterexample: for the peak `[100, 300]` spanning the boundary
between genes `[50, 150]` and `[200, 250]`, the conflict condition holds,
yet the engine emits a UTR record for the second of the two genes — the
claim that no record is emitted for either gene is false. -/
theorem C1_counterexample :
    (exPeak.start < exG1.«end» ∧ exPeak.«end» > exG2.start) ∧
    genesLoop exPeak [exG1, exG2] = [makeUTRFeature exG2 exPeak] ∧
    getAttr (makeUTRFeature exG2 exPeak).attributes "Parent" = ["g2"] ∧
    outcomeRecords (processPeak [exG1, exG2] exPeak) =
      [makeUTRFeature exG2 exPeak] := by
  exact ⟨by decide, by decide, by decide, by decide⟩

/-- C1, amended: when the peak spans the boundary between the genes at
`idx` and `idx+1` of the candidate list, the engine emits no UTR record for
the gene at `idx` only — the loop continues and the gene at `idx+1` is
still evaluated on its own (and may receive a record). -/
theorem C1_amended_conflict_skips_current_gene (peak : Peak)
    (g1 g2 : Feature) (rest : List Feature)
    (h1 : peak.start < g1.«end») (h2 : peak.«end» > g2.start) :
    genesLoop peak (g1 :: g2 :: rest) = genesLoop peak (g2 :: rest) := by
  have hd : geneDecision peak g1 (some g2) = none := by
    unfold geneDecision
    by_cases hc : g1.start < peak.start ∧ g1.«end» > peak.«end»
    · rw [if_pos hc]
    · rw [if_neg hc, if_pos (show neighborConflict peak g1 (some g2) = true by
        simp [neighborConflict]
        exact ⟨h1, h2⟩)]
  rw [genesLoop_cons, List.head?_cons, hd, Option.toList_none, List.nil_append]

/-- C1, witness for the amended theorem at the concrete fixture. -/
theorem C1_witness :
    (exPeak.start < exG1.«end» ∧ exPeak.«end» > exG2.start) ∧
    genesLoop exPeak [exG1, exG2] = genesLoop exPeak [exG2] :=
  ⟨by decide,
    C1_amended_conflict_skips_current_gene exPeak exG1 exG2 []
      (by decide) (by decide)⟩

/-- C2, counterexample: a peak window containing an already-annotated
`three_prime_UTR` feature makes the engine skip the whole peak, not just
one gene — gene `exGB` would receive a record when evaluated alone, but
with the UTR feature in the window nothing is emitted for it. -/
theorem C2_counterexample :
    ((windowFeatures [exUTR, exGB] exPeak).any
      (fun f => f.featuretype = "three_prime_UTR") = true) ∧
    processPeak [exUTR, exGB] exPeak = .alreadyAnnotated ∧
    outcomeRecords (processPeak [exUTR, exGB] exPeak) = [] ∧
    outcomeRecords (processPeak [exGB] exPeak) =
      [makeUTRFeature exGB exPeak] := by
  exact ⟨by decide, by decide, by decide, by decide⟩

/-- C2, amended: when any feature of the peak's window is already of type
`three_prime_UTR`, the engine (which has no override configuration) emits
the already-annotated skip for the entire peak: no candidate gene of that
peak is evaluated and no record is emitted for any of them. -/
theorem C2_amended_already_annotated_skips_whole_peak (db : List Feature)
    (peak : Peak)
    (hne : (windowFeatures db peak).isEmpty = false)
    (hutr : (windowFeatures db peak).any
      (fun f => f.featuretype = "three_prime_UTR") = true) :
    processPeak db peak = .alreadyAnnotated ∧
    outcomeRecords (processPeak db peak) = [] := by
  have h : processPeak db peak = .alreadyAnnotated := by
    unfold processPeak
    rw [if_neg (by simp [hne]), if_pos hutr]
  exact ⟨h, by rw [h]; rfl⟩

/-- C2, witness for the amended theorem at the concrete fixture. -/
theorem C2_witness :
    (windowFeatures [exUTR, exGB] exPeak).isEmpty = false ∧
    ((windowFeatures [exUTR, exGB] exPeak).any
      (fun f => f.featuretype = "three_prime_UTR") = true) ∧
    processPeak [exUTR, exGB] exPeak = .alreadyAnnotated ∧
    outcomeRecords (processPeak [exUTR, exGB] exPeak) = [] := by
  have h := C2_amended_already_annotated_skips_whole_peak [exUTR, exGB]
    exPeak (by decide) (by decide)
  exact ⟨by decide, by decide, h.1, h.2⟩

/-- C3: the script leaves the reverse strand unhandled (its own `TODO`
comment records the intent): the run's output does not depend on the
reverse peaks at all, and a reverse-strand peak lying right next to a
reverse-strand gene — which the query on strand `-` would find — is
reported as having no nearby features, because the query strand is
hard-coded to `+`; no mirrored `(peak.start, gene.start)` record exists
anywhere in the engine. -/
theorem C3_reverse_strand_unhandled :
    (∀ (db : List Feature) (fwd rev rev' : List Peak),
      runScript db fwd rev = runScript db fwd rev') ∧
    exPRev.strand = "-" ∧ exGRev.strand = "-" ∧
    region [exGRev] exPRev.chr (exPRev.start - maxDistanceFromTranscript)
      (exPRev.«end» + maxDistanceFromTranscript) "-" = [exGRev] ∧
    processPeak [exGRev] exPRev = .noFeatures ∧
    runScript [exGRev] [] [exPRev] = [] := by
  exact ⟨fun db fwd rev rev' => rfl, by decide, by decide, by decide,
    by decide, by decide⟩

/-- C4: a forward gene whose containment and neighbour-conflict checks
pass and with `peak.end > gene.end` receives a UTR record with range
exactly `[gene.end, peak.end]`. -/
theorem C4_forward_extension_range (peak : Peak) (g : Feature)
    (rest : List Feature)
    (hcont : ¬(g.start < peak.start ∧ g.«end» > peak.«end»))
    (hconf : neighborConflict peak g rest.head? = false)
    (hext : peak.«end» > g.«end») :
    makeUTRFeature g peak ∈ genesLoop peak (g :: rest) ∧
    (makeUTRFeature g peak).start = g.«end» ∧
    (makeUTRFeature g peak).«end» = peak.«end» := by
  refine ⟨?_, rfl, rfl⟩
  have hd : geneDecision peak g rest.head? = some (makeUTRFeature g peak) := by
    unfold geneDecision
    rw [if_neg hcont, if_neg (by simp [hconf]), if_pos hext]
  rw [genesLoop_cons, hd]
  simp

/-- C4, witness: the spec's own instance — gene ending at `1000`, peak
`[900, 1200]` — receives the UTR range `(1000, 1200)`. -/
theorem C4_witness :
    (¬(exG4.start < exPeak4.start ∧ exG4.«end» > exPeak4.«end»)) ∧
    exPeak4.«end» > exG4.«end» ∧
    makeUTRFeature exG4 exPeak4 ∈ genesLoop exPeak4 [exG4] ∧
    (makeUTRFeature exG4 exPeak4).start = 1000 ∧
    (makeUTRFeature exG4 exPeak4).«end» = 1200 := by
  have h := C4_forward_extension_range exPeak4 exG4 []
    (by decide) (by decide) (by decide)
  exact ⟨by decide, by decide, h.1, by decide, by decide⟩

/-- C5: a peak lying strictly inside a gene's interval yields no UTR
record for that gene: the per-gene decision is `None` whatever the next
gene is, and the gene's loop iteration contributes nothing. -/
theorem C5_contained_peak_no_record (peak : Peak) (g : Feature)
    (h1 : g.start < peak.start) (h2 : peak.«end» < g.«end») :
    (∀ next?, geneDecision peak g next? = none) ∧
    (∀ rest, genesLoop peak (g :: rest) = genesLoop peak rest) := by
  have hd : ∀ next?, geneDecision peak g next? = none := by
    intro next?
    unfold geneDecision
    rw [if_pos ⟨h1, h2⟩]
  refine ⟨hd, fun rest => ?_⟩
  rw [genesLoop_cons, hd, Option.toList_none, List.nil_append]

/-- C5, witness at the concrete fixture: gene `[80, 400]` strictly
contains peak `[100, 300]` and gets no record. -/
theorem C5_witness :
    exG5.start < exPeak.start ∧ exPeak.«end» < exG5.«end» ∧
    geneDecision exPeak exG5 (some exG2) = none ∧
    genesLoop exPeak [exG5, exG2] = genesLoop exPeak [exG2] := by
  have h := C5_contained_peak_no_record exPeak exG5 (by decide) (by decide)
  exact ⟨by decide, by decide, h.1 (some exG2), h.2 [exG2]⟩

/-! ## Claims C6 – C8: the pipeline of `peaks2utr/__init__.py` -/

theorem aggregate_counter_foldl (l : List StreamItem) (init : Annotations) :
    (l.foldl aggregateStep init).no_features_counter =
      init.no_features_counter +
        l.countP (fun s => s = StreamItem.noNearbyFeatures) := by
  induction l generalizing init with
  | nil => simp
  | cons x xs ih =>
      rw [List.foldl_cons, ih]
      cases x <;> simp [aggregateStep, List.countP_cons] <;> omega

theorem aggregate_counter (l : List StreamItem) :
    (aggregate l).no_features_counter =
      l.countP (fun s => s = StreamItem.noNearbyFeatures) := by
  have h := aggregate_counter_foldl l ⟨fun _ => none, 0⟩
  simpa [aggregate] using h

theorem annotate_noNearby_iff (db : List Feature) (maxDist : Int) (p : Peak) :
    annotate_utr_for_peak db maxDist p = .noNearbyFeatures ↔
      hasNoNearbyGenes db maxDist p = true := by
  unfold annotate_utr_for_peak hasNoNearbyGenes
  split
  · rename_i hempty
    simp [hempty]
  · rename_i hempty
    constructor
    · intro hcontr
      split at hcontr <;> cases hcontr
    · intro hc
      exact absurd hc hempty

/-- C6: the worker emits `NoNearbyFeatures` exactly for the peaks whose
extended query window holds no candidate `gene` feature on the peak's
strand, and after a full run the aggregation loop's `no_features_counter`
equals the number of such peaks, for any rendering of the per-peak results
into queue items that keeps the sentinel recognisable. -/
theorem C6_no_nearby_features_counter (db : List Feature) (maxDist : Int)
    (peaks : List Peak) (toItem : PeakResult → StreamItem)
    (hfaithful : ∀ res, toItem res = .noNearbyFeatures ↔
      res = .noNearbyFeatures) :
    (∀ p : Peak, annotate_utr_for_peak db maxDist p = .noNearbyFeatures ↔
      hasNoNearbyGenes db maxDist p = true) ∧
    (aggregate (peaks.map
        (fun p => toItem (annotate_utr_for_peak db maxDist p)))).no_features_counter
      = (peaks.filter (fun p => hasNoNearbyGenes db maxDist p)).length := by
  refine ⟨fun p => annotate_noNearby_iff db maxDist p, ?_⟩
  rw [aggregate_counter, List.countP_map, ← List.countP_eq_length_filter]
  apply List.countP_congr
  intro p _
  simp only [Function.comp_apply, decide_eq_true_eq]
  constructor
  · intro hp
    exact (annotate_noNearby_iff db maxDist p).mp ((hfaithful _).mp hp)
  · intro hp
    exact (hfaithful _).mpr ((annotate_noNearby_iff db maxDist p).mpr hp)

/-- C6, witness: a run over two peaks of which exactly one has no nearby
gene features yields a counter of one. -/
theorem C6_witness :
    (∀ res, plainItem res = .noNearbyFeatures ↔ res = .noNearbyFeatures) ∧
    (aggregate ([exPeakPlus, exPRev].map
        (fun p => plainItem (annotate_utr_for_peak [exGB] 200 p)))).no_features_counter
      = ([exPeakPlus, exPRev].filter
          (fun p => hasNoNearbyGenes [exGB] 200 p)).length ∧
    ([exPeakPlus, exPRev].filter
        (fun p => hasNoNearbyGenes [exGB] 200 p)).length = 1 := by
  have hfaithful : ∀ res, plainItem res = .noNearbyFeatures ↔
      res = .noNearbyFeatures := by
    intro res
    cases res <;> simp [plainItem]
  have h := C6_no_nearby_features_counter [exGB] 200 [exPeakPlus, exPRev]
    plainItem hfaithful
  exact ⟨hfaithful, h.2, by decide⟩

/-- C7: setting both `--override-utr` and `--extend-utr` makes `_main`
exit with a non-zero status before any peak is processed and before any
aggregation is produced. -/
theorem C7_exclusive_flags_rejected (outputExists : Bool) (args : Args)
    (db : List Feature) (peaks : List Peak) (toItem : PeakResult → StreamItem)
    (h : args.override_utr = true ∧ args.extend_utr = true) :
    (mainPipeline outputExists args db peaks toItem).exitCode ≠ 0 ∧
    (mainPipeline outputExists args db peaks toItem).peaksProcessed = 0 ∧
    (mainPipeline outputExists args db peaks toItem).aggregated = none := by
  unfold mainPipeline
  by_cases h1 : (outputExists = true ∧ ¬ args.force = true)
  · rw [if_pos h1]
    exact ⟨Nat.one_ne_zero, rfl, rfl⟩
  · rw [if_neg h1, if_pos h]
    exact ⟨Nat.one_ne_zero, rfl, rfl⟩

/-- C7, witness at a concrete configuration with both flags set. -/
theorem C7_witness :
    (exArgs.override_utr = true ∧ exArgs.extend_utr = true) ∧
    (mainPipeline false exArgs [] [exPeak] plainItem).exitCode ≠ 0 ∧
    (mainPipeline false exArgs [] [exPeak] plainItem).peaksProcessed = 0 ∧
    (mainPipeline false exArgs [] [exPeak] plainItem).aggregated = none := by
  have h := C7_exclusive_flags_rejected false exArgs [] [exPeak] plainItem
    ⟨rfl, rfl⟩
  exact ⟨⟨rfl, rfl⟩, h.1, h.2.1, h.2.2⟩

theorem iter_batches_flatten {α : Type} (xs : List α) (n : Nat) :
    1 ≤ n → (iter_batches xs n).flatten = xs := by
  induction xs, n using iter_batches.induct with
  | case1 xs n h =>
      intro hn
      rcases h with h | h
      · rw [iter_batches, dif_pos (Or.inl h)]
        simp [List.isEmpty_iff.mp h]
      · omega
  | case2 xs n h ih =>
      intro hn
      rw [iter_batches, dif_neg h, List.flatten_cons, ih hn,
        List.take_append_drop]

/-- C8: the batches `_main` builds with `iter_batches` at the
ceiling-division batch size concatenate back to the whole peak collection
(so their union is the collection and relative order is preserved inside
each batch), every batch is a sublist of the collection, and when the
collection has no duplicates the batches are pairwise disjoint. -/
theorem C8_partition_invariant (peaks : List Peak) (procs : Nat)
    (hp : 1 ≤ procs) :
    (iter_batches peaks (batchSize peaks.length procs)).flatten = peaks ∧
    (∀ b ∈ iter_batches peaks (batchSize peaks.length procs),
      b.Sublist peaks) ∧
    (peaks.Nodup →
      (iter_batches peaks
        (batchSize peaks.length procs)).Pairwise List.Disjoint) := by
  have hflat :
      (iter_batches peaks (batchSize peaks.length procs)).flatten = peaks := by
    rcases hpk : peaks with _ | ⟨p, ps⟩
    · rw [iter_batches]
      simp
    · apply iter_batches_flatten
      unfold batchSize
      rw [Nat.le_div_iff_mul_le (by omega : 0 < procs)]
      simp only [List.length_cons]
      omega
  refine ⟨hflat, ?_, ?_⟩
  · intro b hb
    have hsub := List.sublist_flatten_of_mem hb
    rwa [hflat] at hsub
  · intro hnd
    have hjn : (iter_batches peaks
        (batchSize peaks.length procs)).flatten.Nodup := by
      rwa [hflat]
    exact (List.nodup_flatten.mp hjn).2

/-- C8, witness: three distinct peaks split over two processors. -/
theorem C8_witness :
    (1 : Nat) ≤ 2 ∧
    (iter_batches [exPeak, exPeak4, exPRev]
      (batchSize [exPeak, exPeak4, exPRev].length 2)).flatten
      = [exPeak, exPeak4, exPRev] ∧
    (∀ b ∈ iter_batches [exPeak, exPeak4, exPRev]
      (batchSize [exPeak, exPeak4, exPRev].length 2),
      b.Sublist [exPeak, exPeak4, exPRev]) ∧
    ([exPeak, exPeak4, exPRev].Nodup →
      (iter_batches [exPeak, exPeak4, exPRev]
        (batchSize [exPeak, exPeak4, exPRev].length 2)).Pairwise
          List.Disjoint) := by
  have h := C8_partition_invariant [exPeak, exPeak4, exPRev] 2 (by decide)
  exact ⟨by decide, h.1, h.2.1, h.2.2⟩

/-! ## Claim C9: order-(in)dependence of the aggregation -/

theorem betterThan_iff (r o : AnnotRecord) :
    betterThan r o = true ↔
      (utrLength o < utrLength r ∨
        (utrLength r = utrLength o ∧ o.signal < r.signal)) := by
  simp [betterThan]

theorem mergeRec_pick (a b : AnnotRecord)
    (hab : utrLength a = utrLength b → a.signal = b.signal → a = b) :
    (if betterThan b a then some b else some a)
      = (if betterThan a b then some a else some b) := by
  by_cases hba : betterThan b a = true
  · by_cases hab' : betterThan a b = true
    · rw [betterThan_iff] at hba hab'
      simp only [utrLength] at hba hab'
      omega
    · rw [if_pos hba, if_neg hab']
  · by_cases hab' : betterThan a b = true
    · rw [if_neg hba, if_pos hab']
    · rw [if_neg hba, if_neg hab']
      rw [betterThan_iff] at hba hab'
      have h1 : utrLength a = utrLength b := by
        simp only [utrLength] at hba hab' ⊢
        omega
      have h2 : a.signal = b.signal := by
        simp only [utrLength] at hba hab'
        omega
      rw [hab h1 h2]

theorem mergeRec_some (o r : AnnotRecord) :
    mergeRec (some o) r = if betterThan r o then some r else some o := rfl

theorem mergeRec_comm (old? : Option AnnotRecord) (r1 r2 : AnnotRecord)
    (hno : utrLength r1 = utrLength r2 → r1.signal = r2.signal → r1 = r2) :
    mergeRec (mergeRec old? r1) r2 = mergeRec (mergeRec old? r2) r1 := by
  cases old? with
  | none => exact mergeRec_pick r1 r2 hno
  | some o =>
      rw [mergeRec_some o r1, mergeRec_some o r2]
      by_cases b1 : betterThan r1 o = true
      · by_cases b2 : betterThan r2 o = true
        · rw [if_pos b1, if_pos b2, mergeRec_some, mergeRec_some]
          exact mergeRec_pick r1 r2 hno
        · have hc : ¬ betterThan r2 r1 = true := by
            intro hc
            rw [betterThan_iff] at b1 b2 hc
            simp only [utrLength] at b1 b2 hc
            omega
          rw [if_pos b1, if_neg b2, mergeRec_some, mergeRec_some,
            if_pos b1, if_neg hc]
      · by_cases b2 : betterThan r2 o = true
        · have hc : ¬ betterThan r1 r2 = true := by
            intro hc
            rw [betterThan_iff] at b1 b2 hc
            simp only [utrLength] at b1 b2 hc
            omega
          rw [if_neg b1, if_pos b2, mergeRec_some, mergeRec_some,
            if_pos b2, if_neg hc]
        · rw [if_neg b1, if_neg b2, mergeRec_some, mergeRec_some,
            if_neg b1, if_neg b2]

theorem updateRecords_comm (s : String → Option AnnotRecord)
    (r1 r2 : AnnotRecord)
    (hno : r1.gene_id = r2.gene_id → utrLength r1 = utrLength r2 →
      r1.signal = r2.signal → r1 = r2) :
    updateRecords (updateRecords s r1) r2
      = updateRecords (updateRecords s r2) r1 := by
  funext g
  by_cases hgid : r1.gene_id = r2.gene_id
  · by_cases hg : g = r2.gene_id
    · have hg1 : g = r1.gene_id := by rw [hgid]; exact hg
      have hba : r2.gene_id = r1.gene_id := hgid.symm
      simp only [updateRecords, if_pos hg, if_pos hg1, if_pos hgid,
        if_pos hba]
      have hs : s r2.gene_id = s r1.gene_id := by rw [hgid]
      rw [hs]
      exact mergeRec_comm (s r1.gene_id) r1 r2 (hno hgid)
    · have hg1 : ¬ g = r1.gene_id := by rw [hgid]; exact hg
      simp only [updateRecords, if_neg hg, if_neg hg1]
  · have hba : ¬ r2.gene_id = r1.gene_id := fun h => hgid h.symm
    by_cases hg2 : g = r2.gene_id
    · have hg1 : ¬ g = r1.gene_id := by rw [hg2]; exact hba
      simp only [updateRecords, if_pos hg2, if_neg hg1, if_neg hba]
    · by_cases hg1 : g = r1.gene_id
      · simp only [updateRecords, if_pos hg1, if_neg hg2, if_neg hgid]
      · simp only [updateRecords, if_neg hg1, if_neg hg2]

theorem aggregateStep_comm (x y : StreamItem) (z : Annotations)
    (hxy : ∀ r1 r2 : AnnotRecord, x = .record r1 → y = .record r2 →
      r1.gene_id = r2.gene_id → utrLength r1 = utrLength r2 →
      r1.signal = r2.signal → r1 = r2) :
    aggregateStep (aggregateStep z x) y
      = aggregateStep (aggregateStep z y) x := by
  cases x with
  | noNearbyFeatures => cases y <;> rfl
  | skip => cases y <;> rfl
  | record r1 =>
      cases y with
      | noNearbyFeatures => rfl
      | skip => rfl
      | record r2 =>
          simp only [aggregateStep]
          rw [updateRecords_comm z.records r1 r2 (hxy r1 r2 rfl rfl)]

/-- C9, counterexample: two records for the same gene with UTR ranges of
equal length and equal signal value — the spec's own tie-break keeps the
first-seen one, so the two arrival orders of the very same result
multiset aggregate to different `AnnotationSet`s. -/
theorem C9_counterexample :
    ([StreamItem.record exR1, StreamItem.record exR2].Perm
      [StreamItem.record exR2, StreamItem.record exR1]) ∧
    (aggregate [StreamItem.record exR1, StreamItem.record exR2]).records "gX"
      = some exR1 ∧
    (aggregate [StreamItem.record exR2, StreamItem.record exR1]).records "gX"
      = some exR2 ∧
    exR1 ≠ exR2 := by
  exact ⟨List.Perm.swap _ _ _, by decide, by decide, by decide⟩

/-- C9, amended: the aggregation is independent of the order in which the
per-peak results arrive provided no two competing records for the same
gene tie on both UTR range length and signal value; on a full tie the
first-seen record is kept, so the result does depend on arrival order
there. -/
theorem C9_amended_aggregation_order_independent (l1 l2 : List StreamItem)
    (hperm : l1.Perm l2)
    (hnoties : ∀ r1 r2 : AnnotRecord, StreamItem.record r1 ∈ l1 →
      StreamItem.record r2 ∈ l1 → r1.gene_id = r2.gene_id →
      utrLength r1 = utrLength r2 → r1.signal = r2.signal → r1 = r2) :
    aggregate l1 = aggregate l2 := by
  unfold aggregate
  apply hperm.foldl_eq'
  intro x hx y hy z
  apply aggregateStep_comm
  intro r1 r2 hx' hy' h1 h2 h3
  exact hnoties r1 r2 (hx' ▸ hx) (hy' ▸ hy) h1 h2 h3

/-- C9, witness: two records for distinct genes aggregate identically in
either arrival order. -/
theorem C9_witness :
    ([StreamItem.record exR3, StreamItem.record exR4].Perm
      [StreamItem.record exR4, StreamItem.record exR3]) ∧
    aggregate [StreamItem.record exR3, StreamItem.record exR4]
      = aggregate [StreamItem.record exR4, StreamItem.record exR3] := by
  refine ⟨List.Perm.swap _ _ _, ?_⟩
  apply C9_amended_aggregation_order_independent _ _ (List.Perm.swap _ _ _)
  intro r1 r2 h1 h2 hg hl hs
  simp only [List.mem_cons, List.not_mem_nil, or_false] at h1 h2
  rcases h1 with h1 | h1 <;> rcases h2 with h2 | h2 <;>
    injection h1 with h1 <;> injection h2 with h2 <;>
      subst h1 <;> subst h2 <;>
        first
          | rfl
          | exact absurd hg (by decide)

/-! ## Claim C10: shape of the emitted UTR features -/

theorem genesLoop_mem (peak : Peak) (genes : List Feature) :
    ∀ f ∈ genesLoop peak genes, ∃ g ∈ genes, f = makeUTRFeature g peak := by
  induction genes with
  | nil =>
      intro f hf
      simp [genesLoop] at hf
  | cons g rest ih =>
      intro f hf
      rw [genesLoop_cons] at hf
      rcases List.mem_append.mp hf with hf | hf
      · have hsome : geneDecision peak g rest.head? = some f :=
          Option.mem_def.mp (Option.mem_toList.mp hf)
        exact ⟨g, List.mem_cons_self g rest,
          geneDecision_eq_some peak g rest.head? f hsome⟩
      · rcases ih f hf with ⟨g', hg', hfg⟩
        exact ⟨g', List.mem_cons_of_mem g hg', hfg⟩

/-- C10, counterexample: a gene carrying a `colour` attribute of its own
does not get it copied unchanged into its emitted UTR record — the engine
overwrites `colour` with `['3']` — so "the gene's remaining attributes are
copied into it unchanged" fails at the `colour` key. -/
theorem C10_counterexample :
    getAttr exGB.attributes "colour" = ["5"] ∧
    ("colour" : String) ≠ "ID" ∧ ("colour" : String) ≠ "Parent" ∧
    outcomeRecords (processPeak [exGB] exPeak) =
      [makeUTRFeature exGB exPeak] ∧
    getAttr (makeUTRFeature exGB exPeak).attributes "colour" = ["3"] := by
  exact ⟨by decide, by decide, by decide, by decide, by decide⟩

/-- C10, amended: every record the gene loop emits is
`makeUTRFeature g peak` for one of its candidate genes `g`, and such a
record has featuretype `three_prime_UTR`, `ID` attribute `g.id ++ "_UTR"`,
`Parent` attribute exactly `g.id`, the gene's strand and chromosome, a
`colour` attribute overwritten to `['3']`, and every attribute other than
`ID`, `Parent` and `colour` copied from the gene unchanged. -/
theorem C10_amended_emitted_utr_wellformed (peak : Peak)
    (genes : List Feature) :
    (∀ f ∈ genesLoop peak genes, ∃ g ∈ genes, f = makeUTRFeature g peak) ∧
    (∀ g : Feature,
      (makeUTRFeature g peak).featuretype = "three_prime_UTR" ∧
      (makeUTRFeature g peak).strand = g.strand ∧
      (makeUTRFeature g peak).seqid = g.chrom ∧
      getAttr (makeUTRFeature g peak).attributes "ID" = [g.id ++ "_UTR"] ∧
      getAttr (makeUTRFeature g peak).attributes "Parent" = [g.id] ∧
      getAttr (makeUTRFeature g peak).attributes "colour" = ["3"] ∧
      (∀ k, k ≠ "ID" → k ≠ "Parent" → k ≠ "colour" →
        getAttr (makeUTRFeature g peak).attributes k
          = getAttr g.attributes k)) := by
  refine ⟨genesLoop_mem peak genes, fun g => ?_⟩
  refine ⟨rfl, rfl, rfl, ?_, ?_, ?_, ?_⟩
  · show getAttr (setAttr (setAttr (setAttr g.attributes
      "ID" [g.id ++ "_UTR"]) "Parent" [g.id]) "colour" ["3"]) "ID"
        = [g.id ++ "_UTR"]
    rw [getAttr_setAttr_ne _ _ _ _ (by decide),
      getAttr_setAttr_ne _ _ _ _ (by decide), getAttr_setAttr_self]
  · show getAttr (setAttr (setAttr (setAttr g.attributes
      "ID" [g.id ++ "_UTR"]) "Parent" [g.id]) "colour" ["3"]) "Parent"
        = [g.id]
    rw [getAttr_setAttr_ne _ _ _ _ (by decide), getAttr_setAttr_self]
  · show getAttr (setAttr (setAttr (setAttr g.attributes
      "ID" [g.id ++ "_UTR"]) "Parent" [g.id]) "colour" ["3"]) "colour"
        = ["3"]
    rw [getAttr_setAttr_self]
  · intro k hkid hkparent hkcolour
    show getAttr (setAttr (setAttr (setAttr g.attributes
      "ID" [g.id ++ "_UTR"]) "Parent" [g.id]) "colour" ["3"]) k
        = getAttr g.attributes k
    rw [getAttr_setAttr_ne _ _ _ _ hkcolour,
      getAttr_setAttr_ne _ _ _ _ hkparent,
      getAttr_setAttr_ne _ _ _ _ hkid]

/-- C10, witness at a concrete emitted record: gene `exGB`'s `note`
attribute is carried over unchanged while `ID`, `Parent` and `colour` are
reassigned. -/
theorem C10_witness :
    makeUTRFeature exGB exPeak ∈ genesLoop exPeak [exGB] ∧
    (∃ g ∈ [exGB], makeUTRFeature exGB exPeak = makeUTRFeature g exPeak) ∧
    (makeUTRFeature exGB exPeak).featuretype = "three_prime_UTR" ∧
    getAttr (makeUTRFeature exGB exPeak).attributes "ID" = ["gB_UTR"] ∧
    getAttr (makeUTRFeature exGB exPeak).attributes "Parent" = ["gB"] ∧
    ("note" : String) ≠ "ID" ∧ ("note" : String) ≠ "Parent" ∧
    ("note" : String) ≠ "colour" ∧
    getAttr (makeUTRFeature exGB exPeak).attributes "note"
      = getAttr exGB.attributes "note" ∧
    getAttr exGB.attributes "note" = ["keep"] := by
  have h := C10_amended_emitted_utr_wellformed exPeak [exGB]
  refine ⟨by decide, h.1 (makeUTRFeature exGB exPeak) (by decide),
    by decide, by decide, by decide, by decide, by decide, by decide,
    (h.2 exGB).2.2.2.2.2.2 "note" (by decide) (by decide) (by decide),
    by decide⟩

end PeaksToUTR
